import Mathlib

/-!
Verification of the dynamic-plugin export tooling of the rhdh-cli
repository.  The dependency-classification core (classifier, version
compatibility checker, manifest rewriter, export orchestrator) is not
shipped under src/ in this snapshot; those components are modelled from
the specification.  The CLI option parser pieces (interop override
reducer, lazy action wrapper) and buildScalprumPlugin are embedded from
the TypeScript source directly.
-/

/-- Semantic version (major.minor.patch). -/
structure Semver where
  major : Nat
  minor : Nat
  patch : Nat
deriving DecidableEq, Repr

/-- Lexicographic order on versions. -/
def Semver.le (a b : Semver) : Bool :=
  if a.major < b.major then true
  else if b.major < a.major then false
  else if a.minor < b.minor then true
  else if b.minor < a.minor then false
  else a.patch ≤ b.patch

/-- A caret version range (the form used throughout package manifests
in this domain): base version with semver-compatible upgrades. -/
structure Range where
  base : Semver
deriving DecidableEq, Repr

/-- Modelled from the spec: standard semver caret-range satisfaction.
For major 0 the minor number is pinned; otherwise the major is pinned
and the version must be at least the base. -/
def rangeSatisfies (r : Range) (v : Semver) : Bool :=
  if r.base.major == 0 then
    v.major == 0 && v.minor == r.base.minor && Semver.le r.base v
  else
    v.major == r.base.major && Semver.le r.base v

/-- Two caret ranges are compatible when they admit a common version:
same major, and for major 0 also the same minor. -/
def rangeCompatible (r1 r2 : Range) : Bool :=
  if r1.base.major == 0 then
    r2.base.major == 0 && r1.base.minor == r2.base.minor
  else
    r1.base.major == r2.base.major

/-- The wider of two compatible caret ranges is the one with the lower
base version. -/
def widerRange (r1 r2 : Range) : Range :=
  if Semver.le r1.base r2.base then r1 else r2

/-- Modelled from the spec: de-duplication takes the widest compatible
range; mutually incompatible ranges cannot be merged. -/
def mergeRanges (r1 r2 : Range) : Option Range :=
  if rangeCompatible r1 r2 then some (widerRange r1 r2) else none

/-- Dependency kind as declared in a package manifest. -/
inductive DepKind where
  | normal
  | peer
  | dev
  | optionalDep
deriving DecidableEq, Repr

/-- Classification assigned to a dependency by the Dependency
Classifier; starts as unclassified. -/
inductive Classification where
  | embedded
  | shared
  | suppressed
  | unclassified
deriving DecidableEq, Repr

/-- One entry of a package's dependency list (Dependency Record of the
spec's data model). -/
structure Dep where
  name : String
  declaredRange : Range
  kind : DepKind
  isNative : Bool
  classification : Classification
deriving DecidableEq, Repr

/-- Classification Rule Set: resolved configuration driving
classification, mirroring the CLI options of plugin export
(embed-package, shared-package, allow-native-package,
suppress-native-package, ignore-version-check). -/
structure RuleSet where
  embedPackages : List String
  sharedPackages : List String
  allowNativePackages : List String
  suppressNativePackages : List String
  ignoreVersionCheck : List String
deriving DecidableEq, Repr

/-- The host framework's reserved namespace: backstage scoped packages
are by default considered shared dependencies. -/
def isHostNamespace (n : String) : Bool :=
  n.startsWith "@backstage/"

/-- A name is treated as shared when force-listed or in the host
framework's reserved namespace. -/
def sharedName (rules : RuleSet) (n : String) : Bool :=
  decide (n ∈ rules.sharedPackages) || isHostNamespace n

/-- Modelled from the spec: a native dependency with no applicable
policy is a fatal classification error carrying the package name. -/
inductive ClassificationError where
  | nativeNoPolicy (name : String)
deriving DecidableEq, Repr

/-- Modelled from the spec: the Dependency Classifier's ordered rules
(first match wins): embed list, shared list or host namespace, native
policy, default embed. -/
def classifyDep (rules : RuleSet) (d : Dep) : Except ClassificationError Classification :=
  if d.name ∈ rules.embedPackages then .ok .embedded
  else if sharedName rules d.name then .ok .shared
  else if d.isNative && !(decide (d.name ∈ rules.allowNativePackages)) then
    if d.name ∈ rules.suppressNativePackages then .ok .suppressed
    else .error (.nativeNoPolicy d.name)
  else .ok .embedded

/-- Classify a list of dependency records in order, stopping at the
first classification error. -/
def classifyList (rules : RuleSet) : List Dep → Except ClassificationError (List Dep)
  | [] => .ok []
  | d :: rest =>
    match classifyDep rules d with
    | .error e => .error e
    | .ok c =>
      match classifyList rules rest with
      | .error e => .error e
      | .ok l => .ok ({ d with classification := c } :: l)

/-- Modelled from the spec: classification runs over the package's full
dependency list, normal and peer kinds, excluding dev. -/
def classifyAll (rules : RuleSet) (deps : List Dep) : Except ClassificationError (List Dep) :=
  classifyList rules (deps.filter (fun d => d.kind == DepKind.normal || d.kind == DepKind.peer))

/-- Modelled from the spec: a conflicting Classification Rule Set is a
fatal configuration error reported before classification begins. -/
inductive ConfigurationError where
  | conflictingRule (name : String)
deriving DecidableEq, Repr

/-- First name occurring in both lists, if any. -/
def findOverlap (xs ys : List String) : Option String :=
  xs.find? (fun n => decide (n ∈ ys))

/-- Modelled from the spec: building the Classification Rule Set
rejects any name appearing in more than one of the embed, shared and
suppress-native lists. -/
def buildRuleSet (embed shared allowNative suppressNative ignore : List String) :
    Except ConfigurationError RuleSet :=
  match findOverlap embed shared with
  | some n => .error (.conflictingRule n)
  | none =>
    match findOverlap embed suppressNative with
    | some n => .error (.conflictingRule n)
    | none =>
      match findOverlap shared suppressNative with
      | some n => .error (.conflictingRule n)
      | none => .ok ⟨embed, shared, allowNative, suppressNative, ignore⟩

/-- Look a package name up in the Host Version Table. -/
def lookupHost (host : List (String × Semver)) (n : String) : Option Semver :=
  (host.find? (fun p => p.1 == n)).map (fun p => p.2)

/-- Modelled from the spec: compatibility failures of the Version
Compatibility Checker — missing host package, or version mismatch
reported with the package name, declared range and host version. -/
inductive CompatError where
  | hostMissing (name : String)
  | incompatible (name : String) (declared : Range) (hostVersion : Semver)
deriving DecidableEq, Repr

/-- Outcome of one compatibility check: pass, warn or fail. -/
inductive CheckOutcome where
  | pass
  | warn (name : String)
  | fail (e : CompatError)
deriving DecidableEq, Repr

/-- True exactly on the failing outcome. -/
def CheckOutcome.isFail : CheckOutcome → Bool
  | .fail _ => true
  | _ => false

/-- Modelled from the spec: the Version Compatibility Checker.  Skip
when exempted by ignore-version-check; hard failure when the host does
not provide the package; success when the host version satisfies the
declared range; warning for the allow-listed runtime-compatible
exception class; otherwise an incompatibility failure naming the
package, range and host version. -/
def checkCompatibility (rules : RuleSet) (host : List (String × Semver))
    (exemptions : List String) (d : Dep) : CheckOutcome :=
  if d.name ∈ rules.ignoreVersionCheck then .pass
  else
    match lookupHost host d.name with
    | none => .fail (.hostMissing d.name)
    | some v =>
      if rangeSatisfies d.declaredRange v then .pass
      else if d.name ∈ exemptions then .warn d.name
      else .fail (.incompatible d.name d.declaredRange v)

/-- Modelled from the spec: Manifest Rewriter failures — a hoisting
conflict between incompatible ranges of the same name, or an underlying
classification error. -/
inductive RewriteError where
  | conflict (name : String) (r1 r2 : Range)
  | classification (e : ClassificationError)
deriving DecidableEq, Repr

/-- A hoisted dependency is promoted to the peer list when the host
already provides it or when it is a shared name; otherwise it joins the
plugin's own dependency list. -/
def hoistedToPeer (rules : RuleSet) (hostProvides : String → Bool) (n : String) : Bool :=
  hostProvides n || sharedName rules n

/-- Split the hoisted direct dependencies of an embedded package into
the part destined for the dependency list and the part destined for the
peer list. -/
def hoistSplit (rules : RuleSet) (hostProvides : String → Bool)
    (entries : List (String × Range)) : List (String × Range) × List (String × Range) :=
  (entries.filter (fun p => !hoistedToPeer rules hostProvides p.1),
   entries.filter (fun p => hoistedToPeer rules hostProvides p.1))

/-- A statically detected native package that is not on the
allow-native list needs an explicit suppress policy. -/
def nativeUnallowed (rules : RuleSet) (native : String → Bool) (n : String) : Bool :=
  native n && !(decide (n ∈ rules.allowNativePackages))

/-- Modelled from the spec and the export CLI help text: rewrite one
entry of the dependency list.  Embedded packages are removed and their
direct dependencies hoisted; shared names move to peer dependencies;
suppressed native packages are dropped; a native package with no policy
is an error; anything else stays a dependency. -/
def rewriteDepEntry (rules : RuleSet) (native : String → Bool) (hostProvides : String → Bool)
    (hoist : String → List (String × Range)) (e : String × Range) :
    Except RewriteError (List (String × Range) × List (String × Range)) :=
  if e.1 ∈ rules.embedPackages then .ok (hoistSplit rules hostProvides (hoist e.1))
  else if sharedName rules e.1 then .ok ([], [e])
  else if nativeUnallowed rules native e.1 then
    if e.1 ∈ rules.suppressNativePackages then .ok ([], [])
    else .error (.classification (.nativeNoPolicy e.1))
  else .ok ([e], [])

/-- Modelled from the spec: rewrite one entry of the peer dependency
list.  Embedded packages are hoisted, suppressed native packages
dropped, and every other peer dependency remains a peer dependency. -/
def rewritePeerEntry (rules : RuleSet) (native : String → Bool) (hostProvides : String → Bool)
    (hoist : String → List (String × Range)) (e : String × Range) :
    Except RewriteError (List (String × Range) × List (String × Range)) :=
  if e.1 ∈ rules.embedPackages then .ok (hoistSplit rules hostProvides (hoist e.1))
  else if sharedName rules e.1 then .ok ([], [e])
  else if nativeUnallowed rules native e.1 then
    if e.1 ∈ rules.suppressNativePackages then .ok ([], [])
    else .error (.classification (.nativeNoPolicy e.1))
  else .ok ([], [e])

/-- Rewrite every entry of a list, concatenating the dependency-list
and peer-list contributions, stopping at the first error. -/
def rewriteEntries
    (f : String × Range → Except RewriteError (List (String × Range) × List (String × Range))) :
    List (String × Range) → Except RewriteError (List (String × Range) × List (String × Range))
  | [] => .ok ([], [])
  | e :: rest =>
    match f e with
    | .error err => .error err
    | .ok (ds, ps) =>
      match rewriteEntries f rest with
      | .error err => .error err
      | .ok (ds', ps') => .ok (ds ++ ds', ps ++ ps')

/-- Insert one entry into an accumulated entry list: merge with an
existing entry of the same name by taking the widest compatible range,
or report a conflict when the ranges are incompatible. -/
def insertMerged (acc : List (String × Range)) (e : String × Range) :
    Except RewriteError (List (String × Range)) :=
  match acc with
  | [] => .ok [e]
  | a :: rest =>
    if a.1 = e.1 then
      match mergeRanges a.2 e.2 with
      | some r => .ok ((a.1, r) :: rest)
      | none => .error (.conflict a.1 a.2 e.2)
    else
      match insertMerged rest e with
      | .error err => .error err
      | .ok rest' => .ok (a :: rest')

/-- De-duplicate an entry list left to right over an accumulator. -/
def dedupGo (acc : List (String × Range)) :
    List (String × Range) → Except RewriteError (List (String × Range))
  | [] => .ok acc
  | e :: rest =>
    match insertMerged acc e with
    | .error err => .error err
    | .ok acc' => dedupGo acc' rest

/-- Modelled from the spec: de-duplicate a manifest entry list, taking
the widest compatible range per name and reporting conflicts. -/
def dedupEntries (l : List (String × Range)) : Except RewriteError (List (String × Range)) :=
  dedupGo [] l

/-- Package manifest: name, version, dependency list, peer dependency
list. -/
structure Manifest where
  name : String
  version : String
  dependencies : List (String × Range)
  peerDependencies : List (String × Range)
deriving DecidableEq, Repr

/-- Modelled from the spec: the Manifest Rewriter.  Rewrites the
dependency and peer dependency lists entry by entry, then de-duplicates
each resulting list; the package name and version are retained. -/
def rewriteManifest (rules : RuleSet) (native : String → Bool) (hostProvides : String → Bool)
    (hoist : String → List (String × Range)) (m : Manifest) : Except RewriteError Manifest :=
  match rewriteEntries (rewriteDepEntry rules native hostProvides hoist) m.dependencies with
  | .error e => .error e
  | .ok (d1, p1) =>
    match rewriteEntries (rewritePeerEntry rules native hostProvides hoist) m.peerDependencies with
    | .error e => .error e
    | .ok (d2, p2) =>
      match dedupEntries (d1 ++ d2) with
      | .error e => .error e
      | .ok deps =>
        match dedupEntries (p1 ++ p2) with
        | .error e => .error e
        | .ok peers => .ok ⟨m.name, m.version, deps, peers⟩

/-- Terminal states of one plugin export. -/
inductive ExportStatus where
  | Succeeded
  | Failed
deriving DecidableEq, Repr

/-- Observable outcome of one export run: final status, whether the
external bundler was invoked, and whether Finalize completed. -/
structure ExportResult where
  status : ExportStatus
  bundlerInvoked : Bool
  finalized : Bool
deriving DecidableEq, Repr

/-- True when some shared-classified dependency fails the compatibility
check. -/
def compatFails (rules : RuleSet) (host : List (String × Semver))
    (exemptions : List String) (deps : List Dep) : Bool :=
  deps.any (fun d =>
    d.classification == Classification.shared &&
      (checkCompatibility rules host exemptions d).isFail)

/-- Modelled from the spec: the Export Orchestrator state machine,
Classify then CheckCompatibility then Rewrite then external Build then
Finalize; any failure transitions to Failed, and the in-memory stages
fail before the bundler is ever invoked. -/
def runExport (rules : RuleSet) (native : String → Bool) (hostProvides : String → Bool)
    (hoist : String → List (String × Range)) (host : List (String × Semver))
    (exemptions : List String) (deps : List Dep) (m : Manifest)
    (build : Manifest → Bool) (finalize : Bool) : ExportResult :=
  match classifyAll rules deps with
  | .error _ => ⟨.Failed, false, false⟩
  | .ok classified =>
    if compatFails rules host exemptions classified then ⟨.Failed, false, false⟩
    else
      match rewriteManifest rules native hostProvides hoist m with
      | .error _ => ⟨.Failed, false, false⟩
      | .ok m' =>
        if build m' then
          if finalize then ⟨.Succeeded, true, true⟩ else ⟨.Failed, true, false⟩
        else ⟨.Failed, true, false⟩

/-- Accumulator of the override-interop CLI option: for each Rollup
interop mode, the optional list of package names it was set to. -/
structure InteropOverrides where
  auto : Option (List String)
  esModule : Option (List String)
  defaultMode : Option (List String)
  defaultOnly : Option (List String)
deriving DecidableEq, Repr

/-- The empty interop override accumulator (the option's initial
value). -/
def emptyInterop : InteropOverrides :=
  ⟨none, none, none, none⟩

/-- The interop modes accepted by the override-interop option. -/
def interopModes : List String :=
  ["auto", "esModule", "default", "defaultOnly"]

/-- Set the entry of one (valid) interop mode key. -/
def setInterop (prev : InteropOverrides) (key : String) (names : List String) :
    InteropOverrides :=
  if key = "auto" then { prev with auto := some names }
  else if key = "esModule" then { prev with esModule := some names }
  else if key = "default" then { prev with defaultMode := some names }
  else { prev with defaultOnly := some names }

/-- Split a character list at every occurrence of the separator; the
result always has one more group than there are separators, so the
empty input yields a singleton empty group, as the JavaScript string
split does. -/
def splitChars (sep : Char) : List Char → List (List Char)
  | [] => [[]]
  | c :: rest =>
    let r := splitChars sep rest
    if c = sep then [] :: r
    else
      match r with
      | [] => [[c]]
      | g :: gs => (c :: g) :: gs

/-- The JavaScript string split on a single-character separator. -/
def jsSplit (s : String) (sep : Char) : List String :=
  (splitChars sep s.toList).map (fun l => String.mk l)

/-- The override-interop option reducer of registerScriptCommand: split
the argument on the colon, reject unknown modes with an
InvalidArgumentError, and otherwise extend the accumulator, splitting
the part after the first colon on commas.  The JavaScript fallback to
the empty name list fires only when the argument has no colon at all,
because splitting an empty string on commas yields a singleton empty
string, which is truthy. -/
def overrideInteropReducer (value : String) (previous : InteropOverrides) :
    Except String InteropOverrides :=
  let parts := jsSplit value ':'
  let key := parts.headD ""
  if !(decide (key ∈ interopModes)) then
    .error ("Invalid interop mode " ++ key)
  else
    let names :=
      match parts[1]? with
      | none => []
      | some s => jsSplit s ','
    .ok (setInterop previous key names)

/-- A JavaScript value that was thrown: either an Error object or a
non-Error value. -/
inductive JsValue where
  | errObj (msg : String)
  | nonError (v : String)
deriving DecidableEq, Repr

/-- The assertError helper of the backstage errors package: returns the
Error, or itself throws a new Error when the value is not one. -/
def assertErrorModel (v : JsValue) : Except JsValue String :=
  match v with
  | .errObj msg => .ok msg
  | .nonError s => .error (.errObj ("Encountered invalid error value: " ++ s))

/-- How control leaves the lazy command-action wrapper: a process exit
with code 0, a process exit through exitWithError, or a rejection of
the wrapper's promise (control returned to the caller). -/
inductive LazyOutcome where
  | exitZero
  | exitedWithError (msg : String)
  | rejected (v : JsValue)
deriving DecidableEq, Repr

/-- The lazy wrapper of commands/index.ts: run the loaded action; on
resolution exit with code 0; on a thrown value run assertError and then
exitWithError, so a thrown non-Error makes assertError itself throw and
the wrapper's promise reject. -/
def lazyRun (tryResult : Except JsValue Unit) : LazyOutcome :=
  match tryResult with
  | .ok _ => .exitZero
  | .error v =>
    match assertErrorModel v with
    | .ok msg => .exitedWithError msg
    | .error e => .rejected e

/-- Options record of buildScalprumPlugin (plugin metadata kept
opaque). -/
structure BuildScalprumPluginOptions where
  targetDir : String
  writeStats : Bool
  configPaths : List String
  pluginMetadata : String
  resolvedScalprumDistPath : String
deriving DecidableEq, Repr

/-- Argument record of one buildScalprumBundle invocation. -/
structure BundleOptions where
  targetDir : String
  entry : String
  parallelism : Nat
  pluginMetadata : String
  resolvedScalprumDistPath : String
deriving DecidableEq, Repr

/-- buildScalprumPlugin of lib/builder: destructures targetDir,
pluginMetadata and resolvedScalprumDistPath from its options and calls
buildScalprumBundle with entry src/index and the environment-derived
parallelism. -/
def buildScalprumPlugin (envParallelism : Nat) (options : BuildScalprumPluginOptions) :
    BundleOptions :=
  { targetDir := options.targetDir
    entry := "src/index"
    parallelism := envParallelism
    pluginMetadata := options.pluginMetadata
    resolvedScalprumDistPath := options.resolvedScalprumDistPath }

/-- A manifest entry name that the dependency-list rewrite keeps in
place: not embedded, not shared, and not an unallowed native
package. -/
def keepableDep (rules : RuleSet) (native : String → Bool) (n : String) : Prop :=
  n ∉ rules.embedPackages ∧ sharedName rules n = false ∧
    nativeUnallowed rules native n = false

/-- A manifest entry name that the peer-list rewrite keeps in place:
not embedded, and either shared or not an unallowed native package. -/
def keepablePeer (rules : RuleSet) (native : String → Bool) (n : String) : Prop :=
  n ∉ rules.embedPackages ∧
    (sharedName rules n = true ∨ nativeUnallowed rules native n = false)

/-- A small concrete Classification Rule Set used to instantiate the
universally quantified theorems below. -/
def sampleRules : RuleSet :=
  ⟨["embedded-pkg"], ["shared-pkg"], ["native-ok"], ["native-bad"], ["ignored-pkg"]⟩

/-- A rule set whose embed and allow-native lists share a name. -/
def overlapRules : RuleSet :=
  ⟨["both-pkg"], [], ["both-pkg"], [], []⟩

/-- A concrete unclassified dependency record. -/
def sampleDep : Dep :=
  ⟨"plain-pkg", ⟨⟨1, 2, 3⟩⟩, .normal, false, .unclassified⟩

/-- A concrete Host Version Table. -/
def sampleHost : List (String × Semver) :=
  [("shared-pkg", ⟨2, 3, 0⟩), ("old-pkg", ⟨2, 9, 0⟩)]

/-- The classifier never returns the unclassified marker. -/
theorem classifyDep_classified (rules : RuleSet) (d : Dep) (c : Classification)
    (h : classifyDep rules d = .ok c) :
    c = .embedded ∨ c = .shared ∨ c = .suppressed := by
  unfold classifyDep at h
  split at h
  · cases h; exact Or.inl rfl
  · split at h
    · cases h; exact Or.inr (Or.inl rfl)
    · split at h
      · split at h
        · cases h; exact Or.inr (Or.inr rfl)
        · cases h
      · cases h; exact Or.inl rfl

/-- Every record in a successful classification output carries one of
the three real classifications. -/
theorem classifyList_classified (rules : RuleSet) :
    ∀ (deps l : List Dep), classifyList rules deps = .ok l → ∀ d ∈ l,
      d.classification = .embedded ∨ d.classification = .shared ∨
        d.classification = .suppressed := by
  intro deps
  induction deps with
  | nil =>
    intro l h d hd
    simp only [classifyList] at h
    cases h
    cases hd
  | cons a rest ih =>
    intro l h d hd
    unfold classifyList at h
    cases hc : classifyDep rules a with
    | error e => rw [hc] at h; cases h
    | ok c =>
      rw [hc] at h
      cases hr : classifyList rules rest with
      | error e => rw [hr] at h; cases h
      | ok l' =>
        rw [hr] at h
        cases h
        cases hd with
        | head => simpa using classifyDep_classified rules a c hc
        | tail _ hm => exact ih l' hr d hm

/-- Claim C1: classification is total — running the Dependency
Classifier on the normal and peer dependency list either produces a
ClassificationError or assigns every dependency exactly one of
embedded, shared or suppressed; no dependency is left unclassified. -/
theorem classification_total (rules : RuleSet) (deps : List Dep) :
    ((∃ l, classifyAll rules deps = .ok l) ∨ (∃ e, classifyAll rules deps = .error e)) ∧
    (∀ l, classifyAll rules deps = .ok l → ∀ d, d ∈ l →
      (d.classification = .embedded ∨ d.classification = .shared ∨
        d.classification = .suppressed) ∧ d.classification ≠ .unclassified) := by
  constructor
  · cases h : classifyAll rules deps with
    | ok l => exact Or.inl ⟨l, rfl⟩
    | error e => exact Or.inr ⟨e, rfl⟩
  · intro l h d hd
    unfold classifyAll at h
    have h3 := classifyList_classified rules _ l h d hd
    refine ⟨h3, ?_⟩
    rcases h3 with h3 | h3 | h3 <;> simp [h3]

/-- Concrete instantiation of the totality theorem: one plain normal
dependency is classified embedded by the default rule. -/
theorem classification_total_witness :
    (({ sampleDep with classification := .embedded } : Dep).classification = .embedded ∨
      ({ sampleDep with classification := .embedded } : Dep).classification = .shared ∨
      ({ sampleDep with classification := .embedded } : Dep).classification = .suppressed) ∧
    ({ sampleDep with classification := .embedded } : Dep).classification ≠ .unclassified :=
  (classification_total sampleRules [sampleDep]).2
    [{ sampleDep with classification := .embedded }] (by rfl)
    { sampleDep with classification := .embedded } (by simp)

/-- Claim C5: a package listed in both embedPackages and
allowNativePackages is classified embedded — rule 1 fires before the
native-allow policy is ever consulted. -/
theorem embed_beats_native_allow (rules : RuleSet) (d : Dep)
    (h1 : d.name ∈ rules.embedPackages) (h2 : d.name ∈ rules.allowNativePackages) :
    classifyDep rules d = .ok .embedded := by
  unfold classifyDep
  rw [if_pos h1]

/-- Concrete instantiation: a native package on both the embed and the
allow-native lists is classified embedded. -/
theorem embed_beats_native_allow_witness :
    classifyDep overlapRules ⟨"both-pkg", ⟨⟨1, 0, 0⟩⟩, .normal, true, .unclassified⟩ =
      .ok .embedded :=
  embed_beats_native_allow overlapRules
    ⟨"both-pkg", ⟨⟨1, 0, 0⟩⟩, .normal, true, .unclassified⟩ (by decide) (by decide)

/-- Absence of an overlap witness characterizes a none result of
findOverlap. -/
theorem findOverlap_none (xs ys : List String) :
    findOverlap xs ys = none ↔ ∀ n, ¬(n ∈ xs ∧ n ∈ ys) := by
  unfold findOverlap
  rw [List.find?_eq_none]
  constructor
  · intro h n hn
    exact absurd (decide_eq_true hn.2) (h n hn.1)
  · intro h n hx hdec
    exact h n ⟨hx, of_decide_eq_true hdec⟩

/-- A common member forces findOverlap to report some overlap. -/
theorem findOverlap_some (xs ys : List String) (n : String) (hx : n ∈ xs) (hy : n ∈ ys) :
    ∃ m, findOverlap xs ys = some m := by
  cases h : findOverlap xs ys with
  | some m => exact ⟨m, rfl⟩
  | none => exact absurd ⟨hx, hy⟩ ((findOverlap_none xs ys).mp h n)

/-- Claim C7: a rule set accepted by buildRuleSet has pairwise disjoint
embed, shared and suppress-native lists, and a name occurring in more
than one of them makes buildRuleSet report a ConfigurationError. -/
theorem ruleset_disjointness (embed shared allowNative suppressNative ignore : List String) :
    (∀ rs, buildRuleSet embed shared allowNative suppressNative ignore = .ok rs →
      ∀ n, ¬(n ∈ rs.embedPackages ∧ n ∈ rs.sharedPackages) ∧
        ¬(n ∈ rs.embedPackages ∧ n ∈ rs.suppressNativePackages) ∧
        ¬(n ∈ rs.sharedPackages ∧ n ∈ rs.suppressNativePackages)) ∧
    (∀ n, ((n ∈ embed ∧ n ∈ shared) ∨ (n ∈ embed ∧ n ∈ suppressNative) ∨
        (n ∈ shared ∧ n ∈ suppressNative)) →
      ∃ e, buildRuleSet embed shared allowNative suppressNative ignore = .error e) := by
  constructor
  · intro rs h n
    unfold buildRuleSet at h
    cases h1 : findOverlap embed shared with
    | some m => rw [h1] at h; cases h
    | none =>
      rw [h1] at h
      cases h2 : findOverlap embed suppressNative with
      | some m => rw [h2] at h; cases h
      | none =>
        rw [h2] at h
        cases h3 : findOverlap shared suppressNative with
        | some m => rw [h3] at h; cases h
        | none =>
          rw [h3] at h
          cases h
          exact ⟨(findOverlap_none _ _).mp h1 n, (findOverlap_none _ _).mp h2 n,
            (findOverlap_none _ _).mp h3 n⟩
  · intro n hn
    unfold buildRuleSet
    rcases hn with ⟨ha, hb⟩ | ⟨ha, hb⟩ | ⟨ha, hb⟩
    · obtain ⟨m, hm⟩ := findOverlap_some embed shared n ha hb
      exact ⟨.conflictingRule m, by rw [hm]⟩
    · cases h1 : findOverlap embed shared with
      | some m => exact ⟨.conflictingRule m, rfl⟩
      | none =>
        obtain ⟨m, hm⟩ := findOverlap_some embed suppressNative n ha hb
        exact ⟨.conflictingRule m, by rw [hm]⟩
    · cases h1 : findOverlap embed shared with
      | some m => exact ⟨.conflictingRule m, rfl⟩
      | none =>
        cases h2 : findOverlap embed suppressNative with
        | some m => exact ⟨.conflictingRule m, rfl⟩
        | none =>
          obtain ⟨m, hm⟩ := findOverlap_some shared suppressNative n ha hb
          exact ⟨.conflictingRule m, by rw [hm]⟩

/-- Concrete instantiation: the sample rule set is accepted and indeed
disjoint on one name, and a duplicated name is rejected. -/
theorem ruleset_disjointness_witness :
    (¬("embedded-pkg" ∈ sampleRules.embedPackages ∧
        "embedded-pkg" ∈ sampleRules.sharedPackages)) ∧
    (∃ e, buildRuleSet ["dup-pkg"] ["dup-pkg"] [] [] [] = .error e) :=
  ⟨((ruleset_disjointness ["embedded-pkg"] ["shared-pkg"] ["native-ok"] ["native-bad"]
      ["ignored-pkg"]).1 sampleRules (by rfl) "embedded-pkg").1,
    (ruleset_disjointness ["dup-pkg"] ["dup-pkg"] [] [] []).2 "dup-pkg"
      (Or.inl ⟨by decide, by decide⟩)⟩

/-- Claim C2: for a shared-classified dependency, the Version
Compatibility Checker skips names on the ignore list, hard-fails when
the Host Version Table lacks the name, passes when the host version
satisfies the declared range, and otherwise on a non-exempted mismatch
fails with an error naming the package, its declared range and the
host-provided version. -/
theorem compat_check_spec (rules : RuleSet) (host : List (String × Semver))
    (exemptions : List String) (d : Dep) (hc : d.classification = .shared) :
    (d.name ∈ rules.ignoreVersionCheck →
      checkCompatibility rules host exemptions d = .pass) ∧
    (d.name ∉ rules.ignoreVersionCheck → lookupHost host d.name = none →
      checkCompatibility rules host exemptions d = .fail (.hostMissing d.name)) ∧
    (∀ v, d.name ∉ rules.ignoreVersionCheck → lookupHost host d.name = some v →
      rangeSatisfies d.declaredRange v = true →
      checkCompatibility rules host exemptions d = .pass) ∧
    (∀ v, d.name ∉ rules.ignoreVersionCheck → lookupHost host d.name = some v →
      rangeSatisfies d.declaredRange v = false → d.name ∉ exemptions →
      checkCompatibility rules host exemptions d =
        .fail (.incompatible d.name d.declaredRange v)) := by
  refine ⟨?_, ?_, ?_, ?_⟩
  · intro h
    unfold checkCompatibility
    rw [if_pos h]
  · intro h hnone
    unfold checkCompatibility
    rw [if_neg h, hnone]
  · intro v h hsome hsat
    unfold checkCompatibility
    rw [if_neg h, hsome]
    simp [hsat]
  · intro v h hsome hsat hex
    unfold checkCompatibility
    rw [if_neg h, hsome]
    simp [hsat, hex]

/-- Concrete instantiations of the four compatibility branches. -/
theorem compat_check_spec_witness :
    checkCompatibility sampleRules sampleHost []
        ⟨"ignored-pkg", ⟨⟨9, 0, 0⟩⟩, .normal, false, .shared⟩ = .pass ∧
    checkCompatibility sampleRules sampleHost []
        ⟨"missing-pkg", ⟨⟨1, 0, 0⟩⟩, .normal, false, .shared⟩ =
      .fail (.hostMissing "missing-pkg") ∧
    checkCompatibility sampleRules sampleHost []
        ⟨"shared-pkg", ⟨⟨2, 0, 0⟩⟩, .normal, false, .shared⟩ = .pass ∧
    checkCompatibility sampleRules sampleHost []
        ⟨"old-pkg", ⟨⟨3, 0, 0⟩⟩, .normal, false, .shared⟩ =
      .fail (.incompatible "old-pkg" ⟨⟨3, 0, 0⟩⟩ ⟨2, 9, 0⟩) :=
  ⟨(compat_check_spec sampleRules sampleHost []
      ⟨"ignored-pkg", ⟨⟨9, 0, 0⟩⟩, .normal, false, .shared⟩ rfl).1 (by decide),
    (compat_check_spec sampleRules sampleHost []
      ⟨"missing-pkg", ⟨⟨1, 0, 0⟩⟩, .normal, false, .shared⟩ rfl).2.1 (by decide) (by rfl),
    (compat_check_spec sampleRules sampleHost []
      ⟨"shared-pkg", ⟨⟨2, 0, 0⟩⟩, .normal, false, .shared⟩ rfl).2.2.1 ⟨2, 3, 0⟩
      (by decide) (by rfl) (by rfl),
    (compat_check_spec sampleRules sampleHost []
      ⟨"old-pkg", ⟨⟨3, 0, 0⟩⟩, .normal, false, .shared⟩ rfl).2.2.2 ⟨2, 9, 0⟩
      (by decide) (by rfl) (by rfl) (by decide)⟩

/-- Claim C8 counterexample: a valid mode followed by a colon and no
names is mapped to a singleton list containing the empty string, not to
the empty list, because the JavaScript split of an empty string yields
a singleton empty string, which is truthy. -/
theorem interop_trailing_colon_counterexample :
    overrideInteropReducer "auto:" emptyInterop =
      .ok { emptyInterop with auto := some [""] } ∧ ([""] : List String) ≠ [] := by
  exact ⟨rfl, by decide⟩

/-- Claim C8 (amended): an unknown interop mode is rejected with an
InvalidArgumentError; a known mode extends the accumulator so that the
mode maps to the comma-split list of the part after the first colon,
which is the empty list exactly when the argument has no colon at
all. -/
theorem interop_reducer_spec (value : String) (previous : InteropOverrides) :
    ((jsSplit value ':').headD "" ∉ interopModes →
      ∃ msg, overrideInteropReducer value previous = .error msg) ∧
    (∀ mode rest, jsSplit value ':' = mode :: rest → mode ∈ interopModes →
      overrideInteropReducer value previous =
        .ok (setInterop previous mode
          (match rest with
           | [] => []
           | s :: _ => jsSplit s ','))) := by
  constructor
  · intro h
    cases hp : jsSplit value ':' with
    | nil =>
      refine ⟨"Invalid interop mode ", ?_⟩
      unfold overrideInteropReducer
      rw [hp]
      rfl
    | cons key rest =>
      rw [hp] at h
      simp only [List.headD_cons] at h
      refine ⟨"Invalid interop mode " ++ key, ?_⟩
      unfold overrideInteropReducer
      rw [hp]
      simp [h]
  · intro mode rest hsplit hmode
    unfold overrideInteropReducer
    rw [hsplit]
    cases rest with
    | nil => simp [hmode]
    | cons s rest' => simp [hmode]

/-- Concrete instantiations of the amended interop parser claim. -/
theorem interop_reducer_spec_witness :
    (∃ msg, overrideInteropReducer "bogus:x" emptyInterop = .error msg) ∧
    overrideInteropReducer "auto:a,b" emptyInterop =
      .ok { emptyInterop with auto := some ["a", "b"] } ∧
    overrideInteropReducer "esModule" emptyInterop =
      .ok { emptyInterop with esModule := some [] } :=
  ⟨(interop_reducer_spec "bogus:x" emptyInterop).1 (by decide),
    (interop_reducer_spec "auto:a,b" emptyInterop).2 "auto" ["a,b"] (by decide) (by decide),
    (interop_reducer_spec "esModule" emptyInterop).2 "esModule" [] (by decide) (by decide)⟩



/-- Claim C9 counterexample: a thrown non-Error value makes assertError
itself throw inside the catch block, so the wrapper's promise rejects —
control returns to the caller without either exit path running. -/
theorem lazy_nonerror_counterexample :
    lazyRun (.error (.nonError "boom")) =
      .rejected (.errObj ("Encountered invalid error value: boom")) ∧
    lazyRun (.error (.nonError "boom")) ≠ .exitZero := by
  exact ⟨rfl, by decide⟩

/-- Claim C9 (amended): when the loaded action resolves the wrapper
exits the process with code 0; when it throws an Error the wrapper
exits through exitWithError; when it throws a non-Error the assertion
failure propagates and the wrapper rejects instead of exiting. -/
theorem lazy_wrapper_spec (t : Except JsValue Unit) :
    (t = .ok () → lazyRun t = .exitZero) ∧
    (∀ msg, t = .error (.errObj msg) → lazyRun t = .exitedWithError msg) ∧
    (∀ s, t = .error (.nonError s) →
      lazyRun t = .rejected (.errObj ("Encountered invalid error value: " ++ s))) := by
  refine ⟨?_, ?_, ?_⟩
  · intro h; rw [h]; rfl
  · intro msg h; rw [h]; rfl
  · intro s h; rw [h]; rfl

/-- Concrete instantiations of the three wrapper outcomes. -/
theorem lazy_wrapper_spec_witness :
    lazyRun (.ok ()) = .exitZero ∧
    lazyRun (.error (.errObj "broken plugin")) = .exitedWithError "broken plugin" ∧
    lazyRun (.error (.nonError "oops")) =
      .rejected (.errObj ("Encountered invalid error value: oops")) :=
  ⟨(lazy_wrapper_spec (.ok ())).1 rfl,
    (lazy_wrapper_spec (.error (.errObj "broken plugin"))).2.1 "broken plugin" rfl,
    (lazy_wrapper_spec (.error (.nonError "oops"))).2.2 "oops" rfl⟩

/-- Claim C10: buildScalprumPlugin always calls buildScalprumBundle
with entry src/index and the environment-derived parallelism, and the
writeStats and configPaths options have no effect on the call: two
option records differing only in those fields produce the same bundler
invocation. -/
theorem buildScalprumPlugin_frame (p : Nat) (o1 o2 : BuildScalprumPluginOptions)
    (h1 : o1.targetDir = o2.targetDir) (h2 : o1.pluginMetadata = o2.pluginMetadata)
    (h3 : o1.resolvedScalprumDistPath = o2.resolvedScalprumDistPath) :
    buildScalprumPlugin p o1 = buildScalprumPlugin p o2 ∧
    (buildScalprumPlugin p o1).entry = "src/index" ∧
    (buildScalprumPlugin p o1).parallelism = p := by
  refine ⟨?_, rfl, rfl⟩
  unfold buildScalprumPlugin
  rw [h1, h2, h3]

/-- Concrete instantiation: flipping writeStats and dropping
configPaths leaves the bundler invocation unchanged. -/
theorem buildScalprumPlugin_frame_witness :
    buildScalprumPlugin 4 ⟨"target", true, ["app-config.yaml"], "meta", "dist-scalprum"⟩ =
      buildScalprumPlugin 4 ⟨"target", false, [], "meta", "dist-scalprum"⟩ ∧
    (buildScalprumPlugin 4
        ⟨"target", true, ["app-config.yaml"], "meta", "dist-scalprum"⟩).entry = "src/index" ∧
    (buildScalprumPlugin 4
        ⟨"target", true, ["app-config.yaml"], "meta", "dist-scalprum"⟩).parallelism = 4 :=
  buildScalprumPlugin_frame 4
    ⟨"target", true, ["app-config.yaml"], "meta", "dist-scalprum"⟩
    ⟨"target", false, [], "meta", "dist-scalprum"⟩ rfl rfl rfl

/-- A keepable dependency entry is returned unchanged by the
dependency-list rewrite. -/
theorem rewriteDepEntry_keep (rules : RuleSet) (native hp : String → Bool)
    (hoist : String → List (String × Range)) (e : String × Range)
    (h : keepableDep rules native e.1) :
    rewriteDepEntry rules native hp hoist e = .ok ([e], []) := by
  obtain ⟨h1, h2, h3⟩ := h
  unfold rewriteDepEntry
  rw [if_neg h1, if_neg (by simp [h2]), if_neg (by simp [h3])]

/-- A keepable peer entry is returned unchanged by the peer-list
rewrite. -/
theorem rewritePeerEntry_keep (rules : RuleSet) (native hp : String → Bool)
    (hoist : String → List (String × Range)) (e : String × Range)
    (h : keepablePeer rules native e.1) :
    rewritePeerEntry rules native hp hoist e = .ok ([], [e]) := by
  obtain ⟨h1, h23⟩ := h
  unfold rewritePeerEntry
  rw [if_neg h1]
  by_cases hs : sharedName rules e.1 = true
  · rw [if_pos hs]
  · have h3 : nativeUnallowed rules native e.1 = false := by
      rcases h23 with h | h
      · exact absurd h hs
      · exact h
    rw [if_neg hs, if_neg (by simp [h3])]

/-- Rewriting a list of keepable dependency entries returns the list
itself with no peer contribution. -/
theorem rewriteEntries_keepDep (rules : RuleSet) (native hp : String → Bool)
    (hoist : String → List (String × Range)) (l : List (String × Range))
    (h : ∀ e ∈ l, keepableDep rules native e.1) :
    rewriteEntries (rewriteDepEntry rules native hp hoist) l = .ok (l, []) := by
  induction l with
  | nil => rfl
  | cons a rest ih =>
    unfold rewriteEntries
    rw [rewriteDepEntry_keep rules native hp hoist a (h a (List.mem_cons_self a rest)),
      ih (fun e he => h e (List.mem_cons_of_mem a he))]
    rfl

/-- Rewriting a list of keepable peer entries returns the list itself
with no dependency contribution. -/
theorem rewriteEntries_keepPeer (rules : RuleSet) (native hp : String → Bool)
    (hoist : String → List (String × Range)) (l : List (String × Range))
    (h : ∀ e ∈ l, keepablePeer rules native e.1) :
    rewriteEntries (rewritePeerEntry rules native hp hoist) l = .ok ([], l) := by
  induction l with
  | nil => rfl
  | cons a rest ih =>
    unfold rewriteEntries
    rw [rewritePeerEntry_keep rules native hp hoist a (h a (List.mem_cons_self a rest)),
      ih (fun e he => h e (List.mem_cons_of_mem a he))]
    rfl

/-- When hoisted names are never themselves embedded or unallowed
native (the hoisting fixed point), every dependency-list contribution
of a rewritten dependency entry is keepable and every peer contribution
is peer-keepable. -/
theorem rewriteDepEntry_out (rules : RuleSet) (native hp : String → Bool)
    (hoist : String → List (String × Range))
    (Hh : ∀ x p, p ∈ hoist x → p.1 ∉ rules.embedPackages ∧
      nativeUnallowed rules native p.1 = false)
    (e : String × Range) (ds ps : List (String × Range))
    (h : rewriteDepEntry rules native hp hoist e = .ok (ds, ps)) :
    (∀ q ∈ ds, keepableDep rules native q.1) ∧ (∀ q ∈ ps, keepablePeer rules native q.1) := by
  unfold rewriteDepEntry at h
  by_cases h1 : e.1 ∈ rules.embedPackages
  · rw [if_pos h1] at h
    unfold hoistSplit at h
    injection h with h
    injection h with hds hps
    subst hds hps
    constructor
    · intro q hq
      obtain ⟨hmem, hcond⟩ := List.mem_filter.mp hq
      obtain ⟨hemb, hnat⟩ := Hh e.1 q hmem
      have hcond' : hoistedToPeer rules hp q.1 = false := by simpa using hcond
      unfold hoistedToPeer at hcond'
      have hsh := (Bool.or_eq_false_iff.mp hcond').2
      exact ⟨hemb, hsh, hnat⟩
    · intro q hq
      obtain ⟨hmem, _⟩ := List.mem_filter.mp hq
      obtain ⟨hemb, hnat⟩ := Hh e.1 q hmem
      exact ⟨hemb, Or.inr hnat⟩
  · rw [if_neg h1] at h
    by_cases h2 : sharedName rules e.1 = true
    · rw [if_pos h2] at h
      injection h with h
      injection h with hds hps
      subst hds hps
      constructor
      · intro q hq
        exact absurd hq (List.not_mem_nil q)
      · intro q hq
        rw [List.mem_singleton] at hq
        subst hq
        exact ⟨h1, Or.inl h2⟩
    · rw [if_neg h2] at h
      by_cases h3 : nativeUnallowed rules native e.1 = true
      · rw [if_pos h3] at h
        by_cases h4 : e.1 ∈ rules.suppressNativePackages
        · rw [if_pos h4] at h
          injection h with h
          injection h with hds hps
          subst hds hps
          exact ⟨fun q hq => absurd hq (List.not_mem_nil q),
            fun q hq => absurd hq (List.not_mem_nil q)⟩
        · rw [if_neg h4] at h
          cases h
      · rw [if_neg h3] at h
        injection h with h
        injection h with hds hps
        subst hds hps
        constructor
        · intro q hq
          rw [List.mem_singleton] at hq
          subst hq
          exact ⟨h1, Bool.eq_false_iff.mpr h2, Bool.eq_false_iff.mpr h3⟩
        · intro q hq
          exact absurd hq (List.not_mem_nil q)

/-- Peer-entry analogue of the previous lemma. -/
theorem rewritePeerEntry_out (rules : RuleSet) (native hp : String → Bool)
    (hoist : String → List (String × Range))
    (Hh : ∀ x p, p ∈ hoist x → p.1 ∉ rules.embedPackages ∧
      nativeUnallowed rules native p.1 = false)
    (e : String × Range) (ds ps : List (String × Range))
    (h : rewritePeerEntry rules native hp hoist e = .ok (ds, ps)) :
    (∀ q ∈ ds, keepableDep rules native q.1) ∧ (∀ q ∈ ps, keepablePeer rules native q.1) := by
  unfold rewritePeerEntry at h
  by_cases h1 : e.1 ∈ rules.embedPackages
  · rw [if_pos h1] at h
    unfold hoistSplit at h
    injection h with h
    injection h with hds hps
    subst hds hps
    constructor
    · intro q hq
      obtain ⟨hmem, hcond⟩ := List.mem_filter.mp hq
      obtain ⟨hemb, hnat⟩ := Hh e.1 q hmem
      have hcond' : hoistedToPeer rules hp q.1 = false := by simpa using hcond
      unfold hoistedToPeer at hcond'
      have hsh := (Bool.or_eq_false_iff.mp hcond').2
      exact ⟨hemb, hsh, hnat⟩
    · intro q hq
      obtain ⟨hmem, _⟩ := List.mem_filter.mp hq
      obtain ⟨hemb, hnat⟩ := Hh e.1 q hmem
      exact ⟨hemb, Or.inr hnat⟩
  · rw [if_neg h1] at h
    by_cases h2 : sharedName rules e.1 = true
    · rw [if_pos h2] at h
      injection h with h
      injection h with hds hps
      subst hds hps
      constructor
      · intro q hq
        exact absurd hq (List.not_mem_nil q)
      · intro q hq
        rw [List.mem_singleton] at hq
        subst hq
        exact ⟨h1, Or.inl h2⟩
    · rw [if_neg h2] at h
      by_cases h3 : nativeUnallowed rules native e.1 = true
      · rw [if_pos h3] at h
        by_cases h4 : e.1 ∈ rules.suppressNativePackages
        · rw [if_pos h4] at h
          injection h with h
          injection h with hds hps
          subst hds hps
          exact ⟨fun q hq => absurd hq (List.not_mem_nil q),
            fun q hq => absurd hq (List.not_mem_nil q)⟩
        · rw [if_neg h4] at h
          cases h
      · rw [if_neg h3] at h
        injection h with h
        injection h with hds hps
        subst hds hps
        constructor
        · intro q hq
          exact absurd hq (List.not_mem_nil q)
        · intro q hq
          rw [List.mem_singleton] at hq
          subst hq
          exact ⟨h1, Or.inr (Bool.eq_false_iff.mpr h3)⟩

/-- Entry-wise output properties lift to whole-list rewrites. -/
theorem rewriteEntries_out
    (f : String × Range → Except RewriteError (List (String × Range) × List (String × Range)))
    (P Q : String → Prop)
    (hf : ∀ e ds ps, f e = .ok (ds, ps) → (∀ q ∈ ds, P q.1) ∧ (∀ q ∈ ps, Q q.1)) :
    ∀ l ds ps, rewriteEntries f l = .ok (ds, ps) →
      (∀ q ∈ ds, P q.1) ∧ (∀ q ∈ ps, Q q.1) := by
  intro l
  induction l with
  | nil =>
    intro ds ps h
    unfold rewriteEntries at h
    injection h with h
    injection h with hds hps
    subst hds hps
    exact ⟨fun q hq => absurd hq (List.not_mem_nil q),
      fun q hq => absurd hq (List.not_mem_nil q)⟩
  | cons a rest ih =>
    intro ds ps h
    unfold rewriteEntries at h
    cases hf1 : f a with
    | error err => rw [hf1] at h; cases h
    | ok pr =>
      rw [hf1] at h
      obtain ⟨ds1, ps1⟩ := pr
      cases hr : rewriteEntries f rest with
      | error err => rw [hr] at h; cases h
      | ok pr2 =>
        rw [hr] at h
        obtain ⟨ds2, ps2⟩ := pr2
        injection h with h
        injection h with hd hpp
        subst hd hpp
        obtain ⟨hP1, hQ1⟩ := hf a ds1 ps1 hf1
        obtain ⟨hP2, hQ2⟩ := ih ds2 ps2 hr
        constructor
        · intro q hq
          rcases List.mem_append.mp hq with hq | hq
          exacts [hP1 q hq, hP2 q hq]
        · intro q hq
          rcases List.mem_append.mp hq with hq | hq
          exacts [hQ1 q hq, hQ2 q hq]

/-- Inserting an entry whose name is absent appends it at the end. -/
theorem insertMerged_not_mem (acc : List (String × Range)) (e : String × Range)
    (h : e.1 ∉ acc.map Prod.fst) : insertMerged acc e = .ok (acc ++ [e]) := by
  induction acc with
  | nil => rfl
  | cons a rest ih =>
    rw [List.map_cons] at h
    have hne : ¬(a.1 = e.1) := fun hh => h (by rw [hh]; exact List.mem_cons_self _ _)
    have hrest : e.1 ∉ rest.map Prod.fst := fun hh => h (List.mem_cons_of_mem a.1 hh)
    unfold insertMerged
    rw [if_neg hne, ih hrest]
    rfl

/-- A successful insert leaves the name list unchanged or appends the
new name. -/
theorem insertMerged_names (acc : List (String × Range)) (e : String × Range) :
    ∀ acc', insertMerged acc e = .ok acc' →
      acc'.map Prod.fst = acc.map Prod.fst ∨
        acc'.map Prod.fst = acc.map Prod.fst ++ [e.1] := by
  induction acc with
  | nil =>
    intro acc' h
    unfold insertMerged at h
    injection h with h
    subst h
    right
    simp
  | cons a rest ih =>
    intro acc' h
    unfold insertMerged at h
    by_cases hne : a.1 = e.1
    · rw [if_pos hne] at h
      cases hm : mergeRanges a.2 e.2 with
      | none => rw [hm] at h; cases h
      | some r =>
        rw [hm] at h
        injection h with h
        subst h
        left
        simp
    · rw [if_neg hne] at h
      cases hi : insertMerged rest e with
      | error err => rw [hi] at h; cases h
      | ok rest' =>
        rw [hi] at h
        injection h with h
        subst h
        rcases ih rest' hi with h1 | h1
        · left; simp [h1]
        · right; simp [h1]

/-- A successful insert preserves name-list distinctness. -/
theorem insertMerged_nodup (acc : List (String × Range)) (e : String × Range) :
    ∀ acc', (acc.map Prod.fst).Nodup → insertMerged acc e = .ok acc' →
      (acc'.map Prod.fst).Nodup := by
  induction acc with
  | nil =>
    intro acc' _ h
    unfold insertMerged at h
    injection h with h
    subst h
    simp
  | cons a rest ih =>
    intro acc' hnd h
    rw [List.map_cons, List.nodup_cons] at hnd
    unfold insertMerged at h
    by_cases hne : a.1 = e.1
    · rw [if_pos hne] at h
      cases hm : mergeRanges a.2 e.2 with
      | none => rw [hm] at h; cases h
      | some r =>
        rw [hm] at h
        injection h with h
        subst h
        rw [List.map_cons, List.nodup_cons]
        exact hnd
    · rw [if_neg hne] at h
      cases hi : insertMerged rest e with
      | error err => rw [hi] at h; cases h
      | ok rest' =>
        rw [hi] at h
        injection h with h
        subst h
        rw [List.map_cons, List.nodup_cons]
        refine ⟨?_, ih rest' hnd.2 hi⟩
        intro hmem
        rcases insertMerged_names rest e rest' hi with h1 | h1
        · rw [h1] at hmem
          exact hnd.1 hmem
        · rw [h1] at hmem
          rcases List.mem_append.mp hmem with hmem | hmem
          · exact hnd.1 hmem
          · rw [List.mem_singleton] at hmem
            exact hne hmem

/-- De-duplication preserves name-list distinctness of the
accumulator. -/
theorem dedupGo_nodup (l : List (String × Range)) :
    ∀ acc out, (acc.map Prod.fst).Nodup → dedupGo acc l = .ok out →
      (out.map Prod.fst).Nodup := by
  induction l with
  | nil =>
    intro acc out hnd h
    unfold dedupGo at h
    injection h with h
    subst h
    exact hnd
  | cons e rest ih =>
    intro acc out hnd h
    unfold dedupGo at h
    cases hi : insertMerged acc e with
    | error err => rw [hi] at h; cases h
    | ok acc' =>
      rw [hi] at h
      exact ih acc' out (insertMerged_nodup acc e acc' hnd hi) h

/-- Every name in a de-duplicated output comes from the accumulator or
from the input list. -/
theorem dedupGo_names (l : List (String × Range)) :
    ∀ acc out, dedupGo acc l = .ok out → ∀ n, n ∈ out.map Prod.fst →
      n ∈ acc.map Prod.fst ∨ n ∈ l.map Prod.fst := by
  induction l with
  | nil =>
    intro acc out h n hn
    unfold dedupGo at h
    injection h with h
    subst h
    exact Or.inl hn
  | cons e rest ih =>
    intro acc out h n hn
    unfold dedupGo at h
    cases hi : insertMerged acc e with
    | error err => rw [hi] at h; cases h
    | ok acc' =>
      rw [hi] at h
      rcases ih acc' out h n hn with h1 | h1
      · rcases insertMerged_names acc e acc' hi with h2 | h2
        · rw [h2] at h1
          exact Or.inl h1
        · rw [h2] at h1
          rcases List.mem_append.mp h1 with h1 | h1
          · exact Or.inl h1
          · rw [List.mem_singleton] at h1
            subst h1
            exact Or.inr (by simp)
      · exact Or.inr (by simp [h1])

/-- On a list with distinct names, de-duplication is the identity. -/
theorem dedupGo_id (l : List (String × Range)) :
    ∀ acc, ((acc ++ l).map Prod.fst).Nodup → dedupGo acc l = .ok (acc ++ l) := by
  induction l with
  | nil =>
    intro acc _
    simp [dedupGo]
  | cons e rest ih =>
    intro acc hnd
    have he : e.1 ∉ acc.map Prod.fst := by
      intro hmem
      rw [List.map_append] at hnd
      have hdisj := List.disjoint_of_nodup_append hnd
      exact hdisj hmem (by simp)
    unfold dedupGo
    rw [insertMerged_not_mem acc e he]
    have := ih (acc ++ [e]) (by simpa using hnd)
    simpa using this

/-- dedupEntries output has distinct names. -/
theorem dedupEntries_nodup (l out : List (String × Range))
    (h : dedupEntries l = .ok out) : (out.map Prod.fst).Nodup :=
  dedupGo_nodup l [] out (by simp) h

/-- dedupEntries output names come from the input. -/
theorem dedupEntries_names (l out : List (String × Range))
    (h : dedupEntries l = .ok out) : ∀ n, n ∈ out.map Prod.fst → n ∈ l.map Prod.fst := by
  intro n hn
  rcases dedupGo_names l [] out h n hn with h1 | h1
  · cases h1
  · exact h1

/-- dedupEntries is the identity on name-distinct lists. -/
theorem dedupEntries_id (l : List (String × Range))
    (h : (l.map Prod.fst).Nodup) : dedupEntries l = .ok l := by
  have := dedupGo_id l [] (by simpa using h)
  simpa using this

/-- Claim C3: the Manifest Rewriter is idempotent.  Once hoisting has
reached its fixed point (hoisted names are never themselves embedded or
unallowed native, as guaranteed by the worklist iteration of the spec),
rewriting an already-rewritten manifest with the same inputs returns
the same manifest unchanged. -/
theorem rewrite_idempotent (rules : RuleSet) (native hp : String → Bool)
    (hoist : String → List (String × Range)) (m m' : Manifest)
    (Hh : ∀ x p, p ∈ hoist x → p.1 ∉ rules.embedPackages ∧
      nativeUnallowed rules native p.1 = false)
    (h : rewriteManifest rules native hp hoist m = .ok m') :
    rewriteManifest rules native hp hoist m' = .ok m' := by
  unfold rewriteManifest at h
  cases h1 : rewriteEntries (rewriteDepEntry rules native hp hoist) m.dependencies with
  | error e => rw [h1] at h; cases h
  | ok pr1 =>
    rw [h1] at h
    obtain ⟨d1, p1⟩ := pr1
    simp only [] at h
    cases h2 : rewriteEntries (rewritePeerEntry rules native hp hoist) m.peerDependencies with
    | error e => rw [h2] at h; cases h
    | ok pr2 =>
      rw [h2] at h
      obtain ⟨d2, p2⟩ := pr2
      simp only [] at h
      cases h3 : dedupEntries (d1 ++ d2) with
      | error e => rw [h3] at h; cases h
      | ok D =>
        rw [h3] at h
        simp only [] at h
        cases h4 : dedupEntries (p1 ++ p2) with
        | error e => rw [h4] at h; cases h
        | ok P =>
          rw [h4] at h
          simp only [] at h
          injection h with h
          subst h
          have hout1 := rewriteEntries_out _ (keepableDep rules native)
            (keepablePeer rules native)
            (fun e ds ps hh => rewriteDepEntry_out rules native hp hoist Hh e ds ps hh)
            m.dependencies d1 p1 h1
          have hout2 := rewriteEntries_out _ (keepableDep rules native)
            (keepablePeer rules native)
            (fun e ds ps hh => rewritePeerEntry_out rules native hp hoist Hh e ds ps hh)
            m.peerDependencies d2 p2 h2
          have hD : ∀ q ∈ D, keepableDep rules native q.1 := by
            intro q hq
            have hname := dedupEntries_names (d1 ++ d2) D h3 q.1
              (List.mem_map_of_mem Prod.fst hq)
            rw [List.map_append] at hname
            rcases List.mem_append.mp hname with hn | hn
            · obtain ⟨q', hq', hq'eq⟩ := List.mem_map.mp hn
              rw [← hq'eq]
              exact hout1.1 q' hq'
            · obtain ⟨q', hq', hq'eq⟩ := List.mem_map.mp hn
              rw [← hq'eq]
              exact hout2.1 q' hq'
          have hP : ∀ q ∈ P, keepablePeer rules native q.1 := by
            intro q hq
            have hname := dedupEntries_names (p1 ++ p2) P h4 q.1
              (List.mem_map_of_mem Prod.fst hq)
            rw [List.map_append] at hname
            rcases List.mem_append.mp hname with hn | hn
            · obtain ⟨q', hq', hq'eq⟩ := List.mem_map.mp hn
              rw [← hq'eq]
              exact hout1.2 q' hq'
            · obtain ⟨q', hq', hq'eq⟩ := List.mem_map.mp hn
              rw [← hq'eq]
              exact hout2.2 q' hq'
          have hDnd := dedupEntries_nodup (d1 ++ d2) D h3
          have hPnd := dedupEntries_nodup (p1 ++ p2) P h4
          unfold rewriteManifest
          rw [rewriteEntries_keepDep rules native hp hoist D hD,
            rewriteEntries_keepPeer rules native hp hoist P hP]
          simp only [List.append_nil, List.nil_append]
          rw [dedupEntries_id D hDnd, dedupEntries_id P hPnd]

/-- Concrete instantiation of rewrite idempotence: the output manifest
of a first rewrite is a fixed point of the rewriter. -/
theorem rewrite_idempotent_witness :
    rewriteManifest sampleRules (fun _ => false) (fun _ => false) (fun _ => [])
        ⟨"plugin", "1.0.0", [("plain-pkg", ⟨⟨1, 0, 0⟩⟩)], [("shared-pkg", ⟨⟨2, 0, 0⟩⟩)]⟩ =
      .ok ⟨"plugin", "1.0.0", [("plain-pkg", ⟨⟨1, 0, 0⟩⟩)], [("shared-pkg", ⟨⟨2, 0, 0⟩⟩)]⟩ :=
  rewrite_idempotent sampleRules (fun _ => false) (fun _ => false) (fun _ => [])
    ⟨"plugin", "1.0.0",
      [("plain-pkg", ⟨⟨1, 0, 0⟩⟩), ("shared-pkg", ⟨⟨2, 0, 0⟩⟩)], []⟩
    ⟨"plugin", "1.0.0", [("plain-pkg", ⟨⟨1, 0, 0⟩⟩)], [("shared-pkg", ⟨⟨2, 0, 0⟩⟩)]⟩
    (fun _ p hp => absurd hp (List.not_mem_nil p)) (by rfl)

/-- Claim C4: two embedded packages hoisting the same transitive
dependency name with mutually incompatible ranges make the Manifest
Rewriter fail with a RewriteConflict naming that dependency and both
ranges — it never silently selects one of them. -/
theorem hoist_conflict (rules : RuleSet) (native hp : String → Bool)
    (hoist : String → List (String × Range)) (p1 p2 x : String)
    (r1 r2 rp1 rp2 : Range) (mName mVer : String)
    (h1 : p1 ∈ rules.embedPackages) (h2 : p2 ∈ rules.embedPackages)
    (hh1 : hoist p1 = [(x, r1)]) (hh2 : hoist p2 = [(x, r2)])
    (hcomp : rangeCompatible r1 r2 = false) :
    rewriteManifest rules native hp hoist ⟨mName, mVer, [(p1, rp1), (p2, rp2)], []⟩ =
      .error (.conflict x r1 r2) := by
  have e1 : rewriteDepEntry rules native hp hoist (p1, rp1) =
      .ok (hoistSplit rules hp (hoist p1)) := by
    unfold rewriteDepEntry
    rw [if_pos h1]
  have e2 : rewriteDepEntry rules native hp hoist (p2, rp2) =
      .ok (hoistSplit rules hp (hoist p2)) := by
    unfold rewriteDepEntry
    rw [if_pos h2]
  have hmerge : mergeRanges r1 r2 = none := by
    unfold mergeRanges
    rw [if_neg (by simp [hcomp])]
  unfold rewriteManifest
  by_cases hx : hoistedToPeer rules hp x = true
  · have hre : rewriteEntries (rewriteDepEntry rules native hp hoist)
        [(p1, rp1), (p2, rp2)] = .ok ([], [(x, r1), (x, r2)]) := by
      simp [rewriteEntries, e1, e2, hh1, hh2, hoistSplit, hx]
    rw [hre]
    simp [rewriteEntries, dedupEntries, dedupGo, insertMerged, hmerge]
  · have hre : rewriteEntries (rewriteDepEntry rules native hp hoist)
        [(p1, rp1), (p2, rp2)] = .ok ([(x, r1), (x, r2)], []) := by
      simp [rewriteEntries, e1, e2, hh1, hh2, hoistSplit, hx]
    rw [hre]
    simp [rewriteEntries, dedupEntries, dedupGo, insertMerged, hmerge]

/-- Concrete instantiation: two embedded packages hoisting caret-1 and
caret-2 ranges of the same name produce the conflict error. -/
theorem hoist_conflict_witness :
    rewriteManifest ⟨["emb-one", "emb-two"], [], [], [], []⟩ (fun _ => false) (fun _ => false)
        (fun n => if n = "emb-one" then [("x-core", ⟨⟨1, 0, 0⟩⟩)]
          else if n = "emb-two" then [("x-core", ⟨⟨2, 0, 0⟩⟩)] else [])
        ⟨"plugin", "1.0.0", [("emb-one", ⟨⟨1, 0, 0⟩⟩), ("emb-two", ⟨⟨1, 0, 0⟩⟩)], []⟩ =
      .error (.conflict "x-core" ⟨⟨1, 0, 0⟩⟩ ⟨⟨2, 0, 0⟩⟩) :=
  hoist_conflict ⟨["emb-one", "emb-two"], [], [], [], []⟩ (fun _ => false) (fun _ => false)
    (fun n => if n = "emb-one" then [("x-core", ⟨⟨1, 0, 0⟩⟩)]
      else if n = "emb-two" then [("x-core", ⟨⟨2, 0, 0⟩⟩)] else [])
    "emb-one" "emb-two" "x-core" ⟨⟨1, 0, 0⟩⟩ ⟨⟨2, 0, 0⟩⟩ ⟨⟨1, 0, 0⟩⟩ ⟨⟨1, 0, 0⟩⟩
    "plugin" "1.0.0" (by decide) (by decide) (by rfl) (by rfl) (by decide)

/-- Claim C6: a classification error or a compatibility failure drives
the export straight to Failed with the bundler never invoked, and a
Succeeded status implies Finalize completed (and the bundler ran). -/
theorem export_failfast (rules : RuleSet) (native hp : String → Bool)
    (hoist : String → List (String × Range)) (host : List (String × Semver))
    (exemptions : List String) (deps : List Dep) (m : Manifest)
    (build : Manifest → Bool) (finalize : Bool) :
    (∀ e, classifyAll rules deps = .error e →
      runExport rules native hp hoist host exemptions deps m build finalize =
        ⟨.Failed, false, false⟩) ∧
    (∀ l, classifyAll rules deps = .ok l → compatFails rules host exemptions l = true →
      runExport rules native hp hoist host exemptions deps m build finalize =
        ⟨.Failed, false, false⟩) ∧
    ((runExport rules native hp hoist host exemptions deps m build finalize).status =
        .Succeeded →
      (runExport rules native hp hoist host exemptions deps m build finalize).finalized =
          true ∧
        (runExport rules native hp hoist host exemptions deps m build
            finalize).bundlerInvoked = true) := by
  refine ⟨?_, ?_, ?_⟩
  · intro e he
    unfold runExport
    rw [he]
  · intro l hl hc
    unfold runExport
    rw [hl]
    simp [hc]
  · intro hs
    cases hcl : classifyAll rules deps with
    | error e =>
      have hr : runExport rules native hp hoist host exemptions deps m build finalize =
          ⟨.Failed, false, false⟩ := by
        unfold runExport
        rw [hcl]
      rw [hr] at hs
      cases hs
    | ok l =>
      by_cases hc : compatFails rules host exemptions l = true
      · have hr : runExport rules native hp hoist host exemptions deps m build finalize =
            ⟨.Failed, false, false⟩ := by
          unfold runExport
          rw [hcl]
          simp [hc]
        rw [hr] at hs
        cases hs
      · cases hrw : rewriteManifest rules native hp hoist m with
        | error e =>
          have hr : runExport rules native hp hoist host exemptions deps m build finalize =
              ⟨.Failed, false, false⟩ := by
            unfold runExport
            rw [hcl]
            simp [hc, hrw]
          rw [hr] at hs
          cases hs
        | ok m' =>
          by_cases hb : build m' = true
          · by_cases hf : finalize = true
            · have hr : runExport rules native hp hoist host exemptions deps m build
                  finalize = ⟨.Succeeded, true, true⟩ := by
                unfold runExport
                rw [hcl]
                simp [hc, hrw, hb, hf]
              rw [hr]
              exact ⟨rfl, rfl⟩
            · have hr : runExport rules native hp hoist host exemptions deps m build
                  finalize = ⟨.Failed, true, false⟩ := by
                unfold runExport
                rw [hcl]
                simp [hc, hrw, hb, hf]
              rw [hr] at hs
              cases hs
          · have hr : runExport rules native hp hoist host exemptions deps m build
                finalize = ⟨.Failed, true, false⟩ := by
              unfold runExport
              rw [hcl]
              simp [hc, hrw, hb]
            rw [hr] at hs
            cases hs

/-- Concrete instantiations: a native dependency without policy fails
before the bundler, an incompatible shared dependency fails before the
bundler, and a fully successful run has finalized and invoked the
bundler. -/
theorem export_failfast_witness :
    runExport sampleRules (fun _ => false) (fun _ => false) (fun _ => []) sampleHost []
        [⟨"nativ-pkg", ⟨⟨1, 0, 0⟩⟩, .normal, true, .unclassified⟩]
        ⟨"plugin", "1.0.0", [], []⟩ (fun _ => true) true = ⟨.Failed, false, false⟩ ∧
    runExport sampleRules (fun _ => false) (fun _ => false) (fun _ => []) sampleHost []
        [⟨"shared-pkg", ⟨⟨3, 0, 0⟩⟩, .normal, false, .unclassified⟩]
        ⟨"plugin", "1.0.0", [], []⟩ (fun _ => true) true = ⟨.Failed, false, false⟩ ∧
    ((runExport sampleRules (fun _ => false) (fun _ => false) (fun _ => []) sampleHost []
        [] ⟨"plugin", "1.0.0", [], []⟩ (fun _ => true) true).finalized = true ∧
      (runExport sampleRules (fun _ => false) (fun _ => false) (fun _ => []) sampleHost []
        [] ⟨"plugin", "1.0.0", [], []⟩ (fun _ => true) true).bundlerInvoked = true) :=
  ⟨(export_failfast sampleRules (fun _ => false) (fun _ => false) (fun _ => []) sampleHost []
      [⟨"nativ-pkg", ⟨⟨1, 0, 0⟩⟩, .normal, true, .unclassified⟩]
      ⟨"plugin", "1.0.0", [], []⟩ (fun _ => true) true).1
      (.nativeNoPolicy "nativ-pkg") (by rfl),
    (export_failfast sampleRules (fun _ => false) (fun _ => false) (fun _ => []) sampleHost []
      [⟨"shared-pkg", ⟨⟨3, 0, 0⟩⟩, .normal, false, .unclassified⟩]
      ⟨"plugin", "1.0.0", [], []⟩ (fun _ => true) true).2.1
      [⟨"shared-pkg", ⟨⟨3, 0, 0⟩⟩, .normal, false, .shared⟩] (by rfl) (by rfl),
    (export_failfast sampleRules (fun _ => false) (fun _ => false) (fun _ => []) sampleHost []
      [] ⟨"plugin", "1.0.0", [], []⟩ (fun _ => true) true).2.2 (by rfl)⟩
